import Mathlib

/-
  Verification development for the storybook-api repository.

  The definitions below are a shallow embedding of src/extract-metadata.js:
  JavaScript runtime values become the inductive `Value` (JS objects are
  association lists in insertion order, as produced by successive
  `obj[key] = v` assignments, modelled by `upsert`), Babel AST nodes become
  the inductive `Node`, and each extraction function of the source file is
  translated one-to-one.  External effects (file system, HTTP, browser)
  are passed in as explicit inputs, with `Option` encoding the
  null-on-failure convention of the source.
-/

namespace SBExtract

/-- A JavaScript value as it can appear in the extracted metadata.
JS numbers are modelled as integers (the only numeric values the claims
exercise are integer literals). -/
inductive Value where
  | vnull
  | str (s : String)
  | num (n : Int)
  | bool (b : Bool)
  | obj (fields : List (String × Value))
  | arr (elems : List Value)

/-- JS truthiness of a value (`if (v)`): null, the empty string, zero and
`false` are falsy; every object and array is truthy. -/
def jsTruthy : Value → Bool
  | .vnull => false
  | .str s => s != ""
  | .num n => n != 0
  | .bool b => b
  | .obj _ => true
  | .arr _ => true

/-- First binding of a key in an association list (JS objects built by the
code below never hold duplicate keys, see `upsert`). -/
def lookupKV {α : Type} : List (String × α) → String → Option α
  | [], _ => none
  | p :: ps, k => if p.1 = k then some p.2 else lookupKV ps k

/-- Property access `v[k]` on a JS value: `none` models `undefined`. -/
def vget : Value → String → Option Value
  | .obj fields, k => lookupKV fields k
  | _, _ => none

/-- Optional-chaining access `o?.k`. -/
def ovget (o : Option Value) (k : String) : Option Value :=
  match o with
  | some v => vget v k
  | none => none

/-- Truthiness of a possibly-undefined value (`undefined` is falsy). -/
def jsTruthyOpt (o : Option Value) : Bool :=
  match o with
  | some v => jsTruthy v
  | none => false

/-- The idiom `a || d` where `a` may be `undefined`. -/
def jsOrV (o : Option Value) (d : Value) : Value :=
  match o with
  | some v => if jsTruthy v then v else d
  | none => d

/-- The idiom `a || d` on two present values. -/
def jsOr (a d : Value) : Value :=
  if jsTruthy a then a else d

/-- Template-literal stringification of the value shapes the pipeline can
store in `meta.title` (scalars; containers never reach the template). -/
def jsToString : Value → String
  | .vnull => "null"
  | .str s => s
  | .num n => toString n
  | .bool b => if b then "true" else "false"
  | .obj _ => "[object Object]"
  | .arr _ => ""

/-- JS property assignment `m[k] = v`: replaces an existing binding in
place, otherwise appends (insertion order is preserved, as in JS objects). -/
def upsert {α : Type} (m : List (String × α)) (k : String) (v : α) : List (String × α) :=
  if m.any (fun p => p.1 == k) then
    m.map (fun p => if p.1 = k then (k, v) else p)
  else
    m ++ [(k, v)]

/-- The key set of a JS object, `Object.keys`. -/
def keysOf {α : Type} (m : List (String × α)) : List String :=
  m.map Prod.fst

/-- Building a JS object from a raw key-value sequence by successive
assignments (later duplicate keys overwrite in place). -/
def dedupKeys (pairs : List (String × Value)) : List (String × Value) :=
  pairs.foldl (fun acc p => upsert acc p.1 p.2) []

/-- The key of a Babel `ObjectProperty`: an identifier, a string literal,
a numeric literal, or some other node shape with neither `.name` nor
`.value` (computed keys etc.). -/
inductive PKey where
  | identK (name : String)
  | strK (v : String)
  | numK (n : Int)
  | otherK

/-- A Babel AST expression node, restricted to the kinds
`extractValue` (src/extract-metadata.js:363-392) distinguishes.  Object
properties are `(key?, value?)` pairs (`none` key models a property with
no `key` field such as a spread element; `none` value models a property
with no `value` field such as an object method).  `other` stands for every
remaining node kind, carrying its `type` string. -/
inductive Node where
  | stringLit (v : String)
  | numericLit (v : Int)
  | booleanLit (v : Bool)
  | nullLit
  | objectExpr (props : List (Option PKey × Option Node))
  | arrayExpr (elems : List Node)
  | arrowFunctionExpr
  | functionExpr
  | jsxElement
  | jsxFragment
  | ident (name : String)
  | tsAs (inner : Node)
  | other (kind : String)

/-- Is a value the JS `null`?  (`v !== null` in the array filter.) -/
def Value.isNull : Value → Bool
  | .vnull => true
  | _ => false

/-- The computed property key `prop.key.name || prop.key.value` followed by
the `if (!key) return` guard: falsy names/values yield no key. -/
def getKey : Option PKey → Option String
  | some (.identK s) => if s = "" then none else some s
  | some (.strK s) => if s = "" then none else some s
  | some (.numK n) => if n = 0 then none else some (toString n)
  | some .otherK => none
  | none => none

mutual

/-- `extractValue` (src/extract-metadata.js:363-392): normalize one AST
node into a plain value.  Object literals are built key-by-key
(`result[key] = extractValue(prop.value)`), arrays map then drop the
elements that normalized to `null`. -/
def extractValue : Node → Value
  | .stringLit v => .str v
  | .numericLit v => .num v
  | .booleanLit v => .bool v
  | .nullLit => .vnull
  | .objectExpr props => .obj (dedupKeys (rawObjProps props))
  | .arrayExpr elems => .arr ((extractList elems).filter (fun v => !v.isNull))
  | .arrowFunctionExpr => .str "[Function]"
  | .functionExpr => .str "[Function]"
  | .jsxElement => .str "[JSX Element]"
  | .jsxFragment => .str "[JSX Element]"
  | .ident name => .str name
  | .tsAs inner => extractValue inner
  | .other _ => .vnull

/-- `node.elements.map(el => extractValue(el))`. -/
def extractList : List Node → List Value
  | [] => []
  | n :: ns => extractValue n :: extractList ns

/-- The property loop of `extractObjectLiteral`
(src/extract-metadata.js:345-355): skip properties without a usable key or
without a value, otherwise pair the key with the normalized value. -/
def rawObjProps : List (Option PKey × Option Node) → List (String × Value)
  | [] => []
  | (k?, v?) :: ps =>
    match getKey k?, v? with
    | some k, some v => (k, extractValue v) :: rawObjProps ps
    | _, _ => rawObjProps ps

end

/-- `extractObjectLiteral` (src/extract-metadata.js:333-358): unwrap
type assertions, read an object expression key-by-key, return the empty
object for anything else. -/
def extractObjectLiteral : Node → List (String × Value)
  | .tsAs inner => extractObjectLiteral inner
  | .objectExpr props => dedupKeys (rawObjProps props)
  | _ => []

/-- The `.value` field of a literal node (`node.value`): only string,
numeric and boolean literals carry one; every other node (including the
Babel `NullLiteral`, which has no `value` field) yields `undefined`. -/
def nodeRawValue : Node → Option Value
  | .stringLit v => some (.str v)
  | .numericLit v => some (.num v)
  | .booleanLit v => some (.bool v)
  | _ => none

/-- The JS regex class whitespace set matched by the `\s` of
`replace` in `generateStoryId` (code points of the ECMAScript WhiteSpace
and LineTerminator productions). -/
def isJsWs (c : Char) : Bool :=
  c.toNat ∈ [9, 10, 11, 12, 13, 32, 160, 5760,
    8192, 8193, 8194, 8195, 8196, 8197, 8198, 8199, 8200, 8201, 8202,
    8232, 8233, 8239, 8287, 12288, 65279]

/-- Replace every maximal run of whitespace by a single hyphen
(the effect of the global `replace` with a one-or-more whitespace
pattern).  The flag records whether the previous character was part of a
whitespace run already replaced. -/
def collapseWs : Bool → List Char → List Char
  | _, [] => []
  | inRun, c :: cs =>
    if isJsWs c then
      if inRun then collapseWs true cs else '-' :: collapseWs true cs
    else
      c :: collapseWs false cs

/-- Replace a forward slash by a hyphen. -/
def slashToHyphen (c : Char) : Char :=
  if c = '/' then '-' else c

/-- Characters kept by the final strip: lowercase ASCII letter, ASCII
digit, or hyphen. -/
def isSlugChar (c : Char) : Bool :=
  c.isLower || c.isDigit || c == '-'

/-- The four-stage slug pipeline of `generateStoryId` applied to a
character sequence: lowercase, collapse whitespace runs to hyphens,
slashes to hyphens, strip everything outside lowercase-alnum-hyphen. -/
def slugChars (l : List Char) : List Char :=
  ((collapseWs false (l.map Char.toLower)).map slashToHyphen).filter isSlugChar

/-- `generateStoryId` (src/extract-metadata.js:397-403). -/
def generateStoryId (title name : String) : String :=
  String.mk (slugChars (title ++ "--" ++ name).data)

/-- The meta object assembled by `extractMetaObject`
(src/extract-metadata.js:299-328).  `tags` is optional because the
initial per-file meta of `extractFromSourceFiles` (lines 175-180) has no
`tags` field at all, while `extractMetaObject` always returns one. -/
structure MetaObj where
  title : Value
  component : Value
  argTypes : List (String × Value)
  parameters : List (String × Value)
  tags : Option (List Value)

/-- The per-file initial meta of `extractFromSourceFiles` (lines
175-180): empty title, no component, empty argTypes/parameters, and no
`tags` field. -/
def fileInitMeta : MetaObj :=
  { title := .str "", component := .vnull, argTypes := [], parameters := [], tags := none }

/-- The `prop.key?.name` access of `extractMetaObject`: only identifier
keys have a name. -/
def keyNameOf : Option PKey → Option String
  | some (.identK s) => some s
  | _ => none

/-- The tag extraction `prop.value.elements.map(el => el.value).filter(Boolean)`. -/
def tagValues (els : List Node) : List Value :=
  (els.map nodeRawValue).filterMap (fun o =>
    match o with
    | some v => if jsTruthy v then some v else none
    | none => none)

/-- `meta.component = prop.value?.name || null`: the name of an
identifier node when truthy, otherwise JS null. -/
def identNameOrNull : Option Node → Value
  | some (.ident s) => if s = "" then .vnull else .str s
  | _ => .vnull

/-- One iteration of the property loop of `extractMetaObject` (lines
309-321): the if/else-if chain over the property key name. -/
def metaStep (m : MetaObj) (p : Option PKey × Option Node) : MetaObj :=
  match keyNameOf p.1, p.2 with
  | some "title", some v =>
    match nodeRawValue v with
    | some rv => if jsTruthy rv then { m with title := rv } else m
    | none => m
  | some "argTypes", some (Node.objectExpr ps) =>
    { m with argTypes := extractObjectLiteral (Node.objectExpr ps) }
  | some "parameters", some (Node.objectExpr ps) =>
    { m with parameters := extractObjectLiteral (Node.objectExpr ps) }
  | some "tags", some (Node.arrayExpr els) =>
    { m with tags := some (tagValues els) }
  | some "component", v? => { m with component := identNameOrNull v? }
  | _, _ => m

/-- `extractMetaObject` (src/extract-metadata.js:299-328): read the meta
fields off an object expression, unwrapping a type assertion; any other
node shape yields the fresh default meta (whose `tags` is the empty
list). -/
def extractMetaObject : Node → MetaObj
  | .objectExpr props =>
    props.foldl metaStep
      { title := .str "", component := .vnull, argTypes := [], parameters := [], tags := some [] }
  | .tsAs inner => extractMetaObject inner
  | _ =>
    { title := .str "", component := .vnull, argTypes := [], parameters := [], tags := some [] }

/-- Is a normalized value the exact function sentinel string
(`value === '[Function]'`)? -/
def isFnSentinel : Value → Bool
  | .str s => s == "[Function]"
  | _ => false

/-- `config.table?.category === 'events'`. -/
def categoryIsEvents (c : Value) : Bool :=
  match ovget (vget c "table") "category" with
  | some (.str s) => s == "events"
  | _ => false

/-- `typeof config.action === 'string' ? config.action : key`. -/
def actionName (k : String) (c : Value) : Value :=
  match vget c "action" with
  | some (.str s) => .str s
  | _ => .str k

/-- JS `key.startsWith(pfx)`: character-prefix test. -/
def strStartsWith (s pfx : String) : Bool :=
  pfx.data.isPrefixOf s.data

/-- One iteration of the argTypes loop of `extractActionsFromArgs`
(src/extract-metadata.js:422-430).  The guard at line 423 reads
`config.action` with no optional chaining (contrast `value?.action` at
line 670), so a JS-null config value throws a TypeError, modelled as
`none`; a non-null config evaluates the action/events flag and adds the
entry when flagged. -/
def actionsTypeStep (acc : List (String × Value)) (kv : String × Value) :
    Option (List (String × Value)) :=
  match kv.2 with
  | .vnull => none
  | _ =>
    if jsTruthyOpt (vget kv.2 "action") || categoryIsEvents kv.2 then
      some (upsert acc kv.1 (.obj
        [("name", .str kv.1),
         ("description", jsOrV (vget kv.2 "description") (.str "")),
         ("action", actionName kv.1 kv.2)]))
    else some acc

/-- `extractActionsFromArgs` (src/extract-metadata.js:408-433): first
collect the args keys that look like handlers or normalized to the
function sentinel (this loop never throws: line 412 does no property
access on the value and line 415 uses optional chaining), then walk the
argTypes entries, where a null config value makes the whole call throw
(`none`); otherwise the flagged entries are added. -/
def extractActionsFromArgs (args argTypes : List (String × Value)) :
    Option (List (String × Value)) :=
  let fromArgs := args.foldl (fun acc kv =>
    if strStartsWith kv.1 "on" || isFnSentinel kv.2 then
      upsert acc kv.1 (.obj
        [("name", .str kv.1),
         ("description", jsOrV (ovget (lookupKV argTypes kv.1) "description") (.str "")),
         ("action", .str kv.1)])
    else acc) []
  argTypes.foldl (fun acc? kv => acc?.bind (fun acc => actionsTypeStep acc kv)) (some fromArgs)

/-- `extractActions` (src/extract-metadata.js:667-679), the argTypes-only
variant used by the deep live-server strategy. -/
def extractActions (argTypes : List (String × Value)) : List (String × Value) :=
  argTypes.foldl (fun acc kv =>
    if jsTruthyOpt (vget kv.2 "action") || strStartsWith kv.1 "on" || categoryIsEvents kv.2 then
      upsert acc kv.1 (.obj
        [("name", .str kv.1),
         ("description", jsOrV (vget kv.2 "description") (.str "")),
         ("action", actionName kv.1 kv.2)])
    else acc) []

/-- A top-level construct of a story source file, in the order the Babel
traversal of `extractFromSourceFiles` (lines 184-239) visits it:
a default export, a named export of variable declarators (each an
optional identifier name, `none` when the declarator has no plain
identifier), a named export of a function declaration, or an assignment
`<object>.<property> = rhs` (name components `none` when the member
expression parts carry no name). -/
inductive Stmt where
  | exportDefault (decl : Node)
  | exportVars (names : List (Option String))
  | exportFun (name : String)
  | assign (objName : Option String) (propName : Option String) (rhs : Node)
  | otherStmt

/-- The per-story accumulator of the traversal (lines 198-202):
`stories[storyName] = name, args, storyName`. -/
structure StoryState where
  name : String
  args : List (String × Value)
  storyName : Value

/-- The state threaded through the traversal of one file: the current
meta export and the story accumulator, in insertion order. -/
structure FileState where
  meta : MetaObj
  stories : List (String × StoryState)

/-- One visitor step of the traversal (src/extract-metadata.js:184-239). -/
def processStmt (st : FileState) (s : Stmt) : FileState :=
  match s with
  | .exportDefault decl => { st with meta := extractMetaObject decl }
  | .exportVars names =>
    { st with stories := names.foldl (fun acc n? =>
        match n? with
        | some n =>
          if n = "" then acc
          else upsert acc n { name := n, args := [], storyName := .str n }
        | none => acc) st.stories }
  | .exportFun n =>
    if n = "" then st
    else { st with stories := upsert st.stories n { name := n, args := [], storyName := .str n } }
  | .assign obj? prop? rhs =>
    match obj? with
    | some oname =>
      if oname = "" then st
      else if prop? = some "args" then
        { st with stories := st.stories.map (fun p =>
            if p.1 = oname then (p.1, { p.2 with args := extractObjectLiteral rhs }) else p) }
      else if prop? = some "storyName" then
        match nodeRawValue rhs with
        | some dv =>
          if jsTruthy dv then
            { st with stories := st.stories.map (fun p =>
                if p.1 = oname then (p.1, { p.2 with storyName := dv }) else p) }
          else st
        | none => st
      else st
    | none => st
  | .otherStmt => st

/-- `metaExport.parameters?.docs?.description?.story ||
metaExport.parameters?.docs?.description?.component || ''`. -/
def docsDescription (meta : MetaObj) : Value :=
  let desc := ovget (lookupKV meta.parameters "docs") "description"
  jsOrV (ovget desc "story") (jsOrV (ovget desc "component") (.str ""))

/-- The StoryRecord assembled for one story of a parsed source file
(src/extract-metadata.js:247-276), as a JS object in field order.  The
`actions` value (line 264) is the result of the possibly-throwing
`extractActionsFromArgs` call; the caller evaluates it first and only
builds the record when it did not throw, matching the evaluation order
of the object literal. -/
def storyRecord (code path : String) (meta : MetaObj) (key : String) (st : StoryState)
    (acts : List (String × Value)) : List (String × Value) :=
  [("id", .str (generateStoryId (jsToString meta.title) key)),
   ("title", jsOr meta.title (.str "Unknown")),
   ("name", jsOr st.storyName (.str key)),
   ("kind", jsOr meta.title (.str "Unknown")),
   ("story", jsOr st.storyName (.str key)),
   ("importPath", .str path),
   ("type", .str "story"),
   ("tags", .arr (meta.tags.getD [])),
   ("args", .obj st.args),
   ("initialArgs", .obj st.args),
   ("argTypes", .obj meta.argTypes),
   ("parameters", .obj meta.parameters),
   ("actions", .obj acts),
   ("docs", .obj
     [("description", docsDescription meta),
      ("sourceCode", .str code),
      ("mdx", jsOrV (ovget (lookupKV meta.parameters "docs") "page") (.str ""))]),
   ("source", .str code),
   ("component", meta.component)]

/-- One story source file: its project-relative path, its raw text, and
its parse result (`none` models a parse error caught at lines 279-281). -/
structure SrcFile where
  path : String
  code : String
  parsed : Option (List Stmt)

/-- The story-record forEach of a parsed file (lines 242-277), run
inside the per-file try: for each story the record's actions value is
evaluated first; when that evaluation throws (a null-valued argTypes
entry), the forEach aborts — records already assigned into the shared
catalog stay, the remaining stories of the file are skipped, and the
per-file catch swallows the error. -/
def fileRecordsLoop (code path : String) (meta : MetaObj) :
    List (String × Value) → List (String × StoryState) → List (String × Value)
  | acc, [] => acc
  | acc, p :: ps =>
    match extractActionsFromArgs p.2.args meta.argTypes with
    | none => acc
    | some acts =>
      fileRecordsLoop code path meta
        (upsert acc (generateStoryId (jsToString meta.title) p.1)
          (.obj (storyRecord code path meta p.1 p.2 acts))) ps

/-- Process one successfully parsed file: run the traversal, then insert
one record per collected story into the catalog story map (lines
242-277). -/
def fileRecords (catStories : List (String × Value)) (f : SrcFile) (stmts : List Stmt) :
    List (String × Value) :=
  let st := stmts.foldl processStmt { meta := fileInitMeta, stories := [] }
  fileRecordsLoop f.code f.path st.meta catStories st.stories

/-- The extraction output (src/extract-metadata.js:751-759). -/
structure Catalog where
  version : String
  generatedAt : String
  extractedFrom : String
  totalStories : Nat
  stories : List (String × Value)

/-- `createMetadataStructure` (src/extract-metadata.js:751-759), with the
wall-clock timestamp passed in explicitly. -/
def createMetadataStructure (now source : String) : Catalog :=
  { version := "1.0.0", generatedAt := now, extractedFrom := source,
    totalStories := 0, stories := [] }

/-- The per-file loop and final count of `extractFromSourceFiles`
(src/extract-metadata.js:161-288): files that fail to parse are skipped,
the others contribute their records in order, and `totalStories` is set
to the number of story entries at the end (line 284). -/
def extractFromSourceFiles (now : String) (files : List SrcFile) : Catalog :=
  let st := files.foldl (fun acc f =>
    match f.parsed with
    | none => acc
    | some stmts => fileRecords acc f stmts) []
  { createMetadataStructure now "source-files" with stories := st, totalStories := st.length }

/-- The whole of `extractFromSourceFiles` including its failure modes:
`none` models the `return null` paths (parser dependencies missing, src
directory missing, or an error thrown outside the per-file loop), in
which case no file list is available. -/
def extractFromSourceFilesOpt (now : String) (src : Option (List SrcFile)) : Option Catalog :=
  src.map (extractFromSourceFiles now)

/-- `extractBasicStoryData` (src/extract-metadata.js:764-785): wrap one
index.json entry into a minimal StoryRecord. -/
def extractBasicStoryData (entry : Value) : List (String × Value) :=
  [("id", jsOrV (vget entry "id") (.str "")),
   ("title", jsOrV (vget entry "title") (.str "")),
   ("name", jsOrV (vget entry "name") (.str "")),
   ("kind", jsOrV (vget entry "title") (.str "")),
   ("story", jsOrV (vget entry "name") (.str "")),
   ("importPath", jsOrV (vget entry "importPath") (.str "")),
   ("type", jsOrV (vget entry "type") (.str "story")),
   ("tags", jsOrV (vget entry "tags") (.arr [])),
   ("args", .obj []),
   ("initialArgs", .obj []),
   ("argTypes", .obj []),
   ("actions", .obj []),
   ("docs", .obj [("description", .str "")]),
   ("source", .str ""),
   ("parameters", .obj []),
   ("component", .vnull)]

/-- `extractFromBuiltStorybook` (src/extract-metadata.js:441-468): `none`
input models a missing or unparsable `index.json` (the `return null`
paths); otherwise each entry is wrapped and the catalog is returned with
its provenance tag — note that this strategy never updates
`totalStories`, which stays at its initial 0. -/
def extractFromBuiltStorybook (now : String) (builtIndex : Option (List (String × Value))) :
    Option Catalog :=
  match builtIndex with
  | none => none
  | some entries =>
    some { createMetadataStructure now "built-storybook" with
           stories := entries.foldl (fun acc p =>
             upsert acc p.1 (.obj (extractBasicStoryData p.2))) [] }

/-- The record built for one story when deep introspection fails for it
(src/extract-metadata.js:624-641); the same field list is built for every
entry by the basic-only fallback (lines 722-739). -/
def basicIndexRecord (storyId : String) (entry : Value) : List (String × Value) :=
  [("id", jsOrV (vget entry "id") (.str storyId)),
   ("title", jsOrV (vget entry "title") (.str "")),
   ("name", jsOrV (vget entry "name") (.str "")),
   ("kind", jsOrV (vget entry "title") (.str "")),
   ("story", jsOrV (vget entry "name") (.str "")),
   ("importPath", jsOrV (vget entry "importPath") (.str "")),
   ("type", jsOrV (vget entry "type") (.str "story")),
   ("tags", jsOrV (vget entry "tags") (.arr [])),
   ("args", .obj []),
   ("initialArgs", .obj []),
   ("argTypes", .obj []),
   ("actions", .obj []),
   ("docs", .obj [("description", .str ""), ("sourceCode", .str ""), ("mdx", .str "")]),
   ("source", .str ""),
   ("parameters", .obj [("fileName", jsOrV (vget entry "importPath") (.str ""))]),
   ("component", .vnull)]

/-- The object the in-browser `page.evaluate` returns for one story
(src/extract-metadata.js:573-579), after its internal `|| {}` / `|| []`
defaults have been applied. -/
structure DeepStory where
  args : List (String × Value)
  initialArgs : List (String × Value)
  argTypes : List (String × Value)
  parameters : List (String × Value)
  tags : List Value

/-- Outcome of the per-story browser step: the navigation or evaluation
threw (the catch branch at line 622), the evaluation returned null, or it
returned story data. -/
inductive DeepFetch where
  | fail
  | nulldata
  | data (d : DeepStory)

/-- The record built for one story on the non-throwing deep path
(src/extract-metadata.js:587-620); `sd` is the evaluation result
(`none` when the browser returned null). -/
def deepRecord (storyId : String) (entry : Value) (sd : Option DeepStory) :
    List (String × Value) :=
  let params := (sd.map DeepStory.parameters).getD []
  [("id", jsOrV (vget entry "id") (.str storyId)),
   ("title", jsOrV (vget entry "title") (.str "")),
   ("name", jsOrV (vget entry "name") (.str "")),
   ("kind", jsOrV (vget entry "title") (.str "")),
   ("story", jsOrV (vget entry "name") (.str "")),
   ("importPath", jsOrV (vget entry "importPath") (.str "")),
   ("type", jsOrV (vget entry "type") (.str "story")),
   ("tags", match sd with
     | some d => .arr d.tags
     | none => jsOrV (vget entry "tags") (.arr [])),
   ("args", .obj ((sd.map DeepStory.args).getD [])),
   ("initialArgs", .obj ((sd.map DeepStory.initialArgs).getD [])),
   ("argTypes", .obj ((sd.map DeepStory.argTypes).getD [])),
   ("actions", .obj (extractActions ((sd.map DeepStory.argTypes).getD []))),
   ("docs", .obj
     [("description",
       jsOrV (ovget (ovget (lookupKV params "docs") "description") "story")
         (jsOrV (ovget (ovget (lookupKV params "docs") "description") "component") (.str ""))),
      ("sourceCode",
       jsOrV (ovget (ovget (lookupKV params "docs") "source") "code")
         (jsOrV (ovget (lookupKV params "storySource") "source") (.str ""))),
      ("mdx", jsOrV (ovget (lookupKV params "docs") "page") (.str ""))]),
   ("source", jsOrV (ovget (ovget (lookupKV params "docs") "source") "code") (.str "")),
   ("parameters", .obj
     (((sd.map DeepStory.parameters).getD []).foldl (fun acc p => upsert acc p.1 p.2)
       [("fileName", jsOrV (vget entry "importPath") (.str ""))])),
   ("component", jsOrV (ovget (lookupKV params "component") "__docgenInfo") .vnull)]

/-- The per-story loop and final count of
`extractDeepMetadataWithBrowser` (src/extract-metadata.js:536-653),
given the per-story browser outcomes. -/
def extractDeepMetadataWithBrowser (now : String) (entries : List (String × Value))
    (fetch : String → DeepFetch) : Catalog :=
  let st := entries.foldl (fun acc p =>
    match fetch p.1 with
    | .fail => upsert acc p.1 (.obj (basicIndexRecord p.1 p.2))
    | .nulldata => upsert acc p.1 (.obj (deepRecord p.1 p.2 none))
    | .data d => upsert acc p.1 (.obj (deepRecord p.1 p.2 (some d)))) []
  { createMetadataStructure now "running-storybook-deep" with
    stories := st, totalStories := st.length }

/-- Availability of the deep-introspection strategy: puppeteer missing
(`return null` at line 512), the surrounding try threw (`return null` at
line 661), or a run with its per-story outcomes. -/
inductive DeepEnv where
  | unavailable
  | crashed
  | ok (fetch : String → DeepFetch)

/-- The basic-only fallback catalog (src/extract-metadata.js:719-743). -/
def basicIndexCatalog (now : String) (entries : List (String × Value)) : Catalog :=
  let st := entries.foldl (fun acc p =>
    upsert acc p.1 (.obj (basicIndexRecord p.1 p.2))) []
  { createMetadataStructure now "storybook-index-basic" with
    stories := st, totalStories := st.length }

/-- The external world one extraction run sees: the discovered source
files (`none` when source parsing is unavailable), the live-server
index.json entries (`none` when the HTTP fetch failed), the state of the
browser-automation dependency, and the on-disk built index
(`none` when index.json is missing or unparsable). -/
structure Env where
  now : String
  sourceFiles : Option (List SrcFile)
  indexEntries : Option (List (String × Value))
  deepEnv : DeepEnv
  builtIndex : Option (List (String × Value))

/-- The deep strategy including its failure modes. -/
def extractDeepOpt (env : Env) (entries : List (String × Value)) : Option Catalog :=
  match env.deepEnv with
  | .unavailable => none
  | .crashed => none
  | .ok fetch => some (extractDeepMetadataWithBrowser env.now entries fetch)

/-- `extractFromRunningStorybook` (src/extract-metadata.js:685-744), the
strategy selector: source parsing first (kept when it yields stories),
then the live index (falling back to the built index when it is missing
or empty), then deep introspection (kept when non-empty), then the
basic-only wrap of the index entries. -/
def extractFromRunningStorybook (env : Env) : Option Catalog :=
  let sourceMetadata := extractFromSourceFilesOpt env.now env.sourceFiles
  match sourceMetadata with
  | some m =>
    if m.totalStories > 0 then some m
    else
      match env.indexEntries with
      | none => extractFromBuiltStorybook env.now env.builtIndex
      | some entries =>
        if entries.length = 0 then extractFromBuiltStorybook env.now env.builtIndex
        else
          match extractDeepOpt env entries with
          | some dm =>
            if dm.totalStories > 0 then some dm else some (basicIndexCatalog env.now entries)
          | none => some (basicIndexCatalog env.now entries)
  | none =>
    match env.indexEntries with
    | none => extractFromBuiltStorybook env.now env.builtIndex
    | some entries =>
      if entries.length = 0 then extractFromBuiltStorybook env.now env.builtIndex
      else
        match extractDeepOpt env entries with
        | some dm =>
          if dm.totalStories > 0 then some dm else some (basicIndexCatalog env.now entries)
        | none => some (basicIndexCatalog env.now entries)

/-- `saveMetadata` (src/extract-metadata.js:790-806): recompute the total
story count just before the catalog is serialized; the returned value is
the catalog as written to disk. -/
def saveMetadata (m : Catalog) : Catalog :=
  { m with totalStories := m.stories.length }

/-- The build-mode path of `main` (src/extract-metadata.js:853-885):
extract from the built storybook; with the enhance flag, retry with the
full selector and replace the catalog only when the retry's provenance
tag is the string the code compares against; finally save.  `none` models
the failed-extraction exit. -/
def mainBuildResult (shouldEnhance : Bool) (env : Env) : Option Catalog :=
  match extractFromBuiltStorybook env.now env.builtIndex with
  | none => none
  | some m =>
    let chosen :=
      if shouldEnhance then
        match extractFromRunningStorybook env with
        | some enhanced =>
          if enhanced.extractedFrom = "running-storybook" then enhanced else m
        | none => m
      else m
    some (saveMetadata chosen)

/-- Field access on a catalog's story map: the record stored under a
story id, then one of its fields. -/
def storyField (c : Catalog) (sid field : String) : Option Value :=
  match lookupKV c.stories sid with
  | some v => vget v field
  | none => none

/-- The lowercase alphanumeric character set on which the slug of
`generateStoryId` is the identity and contains no separator. -/
def slugAlphabet : List Char :=
  ['a', 'b', 'c', 'd', 'e', 'f', 'g', 'h', 'i', 'j', 'k', 'l', 'm',
   'n', 'o', 'p', 'q', 'r', 's', 't', 'u', 'v', 'w', 'x', 'y', 'z',
   '0', '1', '2', '3', '4', '5', '6', '7', '8', '9']

section Helpers

/-- A pair found in an upserted object is either an old binding or the
new one. -/
theorem mem_upsert {α : Type} {p : String × α} {m : List (String × α)} {k : String} {v : α}
    (h : p ∈ upsert m k v) : p ∈ m ∨ p = (k, v) := by
  unfold upsert at h
  split at h
  · rcases List.mem_map.1 h with ⟨q, hq, heq⟩
    by_cases hk : q.1 = k
    · simp [hk] at heq
      exact Or.inr heq.symm
    · simp [hk] at heq
      exact Or.inl (heq ▸ hq)
  · rcases List.mem_append.1 h with h1 | h1
    · exact Or.inl h1
    · simp at h1
      exact Or.inr h1

/-- An upsert never removes a key. -/
theorem keysOf_upsert_superset {α : Type} {m : List (String × α)} {k k' : String} {v : α}
    (h : k' ∈ keysOf m) : k' ∈ keysOf (upsert m k v) := by
  unfold upsert keysOf at *
  split
  · rcases List.mem_map.1 h with ⟨q, hq, hfst⟩
    refine List.mem_map.2 ⟨if q.1 = k then (k, v) else q, List.mem_map.2 ⟨q, hq, rfl⟩, ?_⟩
    by_cases hk : q.1 = k
    · rw [if_pos hk]
      exact hk ▸ hfst
    · rw [if_neg hk]
      exact hfst
  · exact List.mem_map.2 (by
      rcases List.mem_map.1 h with ⟨q, hq, hfst⟩
      exact ⟨q, List.mem_append_left _ hq, hfst⟩)

/-- The upserted key is a key of the result. -/
theorem self_mem_keysOf_upsert {α : Type} (m : List (String × α)) (k : String) (v : α) :
    k ∈ keysOf (upsert m k v) := by
  unfold upsert keysOf
  split
  · rename_i hany
    rcases List.any_eq_true.1 hany with ⟨q, hq, hqk⟩
    refine List.mem_map.2 ⟨(k, v), List.mem_map.2 ⟨q, hq, ?_⟩, rfl⟩
    simp [show q.1 = k from by simpa using hqk]
  · exact List.mem_map.2 ⟨(k, v), List.mem_append_right _ (by simp), rfl⟩

/-- Keys only accumulate along a guarded-upsert fold. -/
theorem keysOf_foldl_upsert_superset {α : Type} (f : String × α → Bool) (g : String × α → Value)
    (l : List (String × α)) (acc : List (String × Value)) (k : String)
    (h : k ∈ keysOf acc) :
    k ∈ keysOf (l.foldl (fun a kv => if f kv then upsert a kv.1 (g kv) else a) acc) := by
  induction l generalizing acc with
  | nil => exact h
  | cons hd tl ih =>
    simp only [List.foldl_cons]
    by_cases hf : f hd
    · simp only [hf, if_true]
      exact ih _ (keysOf_upsert_superset h)
    · simp only [hf, if_false]
      exact ih _ h

/-- A list element passing the guard contributes its key to the fold
result. -/
theorem mem_keysOf_foldl_upsert {α : Type} (f : String × α → Bool) (g : String × α → Value)
    (l : List (String × α)) (acc : List (String × Value)) (kv : String × α)
    (hmem : kv ∈ l) (hf : f kv = true) :
    kv.1 ∈ keysOf (l.foldl (fun a p => if f p then upsert a p.1 (g p) else a) acc) := by
  induction l generalizing acc with
  | nil => cases hmem
  | cons hd tl ih =>
    rcases List.mem_cons.1 hmem with heq | hmem'
    · subst heq
      simp only [List.foldl_cons, hf, if_true]
      exact keysOf_foldl_upsert_superset f g tl _ kv.1 (self_mem_keysOf_upsert acc kv.1 (g kv))
    · simp only [List.foldl_cons]
      exact ih _ hmem'

/-- Every pair in an unguarded keyed fold is an old pair or generated
from a list element. -/
theorem mem_foldl_upsert {α : Type} (kf : α → String) (vf : α → Value) :
    ∀ (l : List α) (acc : List (String × Value)) (p : String × Value),
      p ∈ l.foldl (fun a q => upsert a (kf q) (vf q)) acc →
      p ∈ acc ∨ ∃ q ∈ l, p = (kf q, vf q) := by
  intro l
  induction l with
  | nil =>
    intro acc p h
    exact Or.inl h
  | cons hd tl ih =>
    intro acc p h
    simp only [List.foldl_cons] at h
    rcases ih _ p h with h1 | ⟨q, hq, hpq⟩
    · rcases mem_upsert h1 with h2 | h2
      · exact Or.inl h2
      · exact Or.inr ⟨hd, List.mem_cons_self hd tl, h2⟩
    · exact Or.inr ⟨q, List.mem_cons_of_mem hd hq, hpq⟩

/-- An argTypes action fold that has already thrown stays thrown. -/
theorem actionsFold_none (l : List (String × Value)) :
    l.foldl (fun a? kv => a?.bind (fun a => actionsTypeStep a kv)) none = none := by
  induction l with
  | nil => rfl
  | cons hd tl ih =>
    simp only [List.foldl_cons, Option.none_bind]
    exact ih

/-- One non-throwing step of the argTypes loop never removes keys. -/
theorem actionsTypeStep_superset {acc acc' : List (String × Value)} {kv : String × Value}
    (h : actionsTypeStep acc kv = some acc') {k : String} (hk : k ∈ keysOf acc) :
    k ∈ keysOf acc' := by
  unfold actionsTypeStep at h
  split at h
  · exact Option.noConfusion h
  · split at h
    · injection h with h
      subst h
      exact keysOf_upsert_superset hk
    · injection h with h
      subst h
      exact hk

/-- Keys are preserved along the non-throwing argTypes loop. -/
theorem keysOf_actionsFold_superset :
    ∀ (l : List (String × Value)) (acc acts : List (String × Value)) (k : String),
      l.foldl (fun a? kv => a?.bind (fun a => actionsTypeStep a kv)) (some acc) = some acts →
      k ∈ keysOf acc → k ∈ keysOf acts := by
  intro l
  induction l with
  | nil =>
    intro acc acts k h hk
    cases h
    exact hk
  | cons hd tl ih =>
    intro acc acts k h hk
    simp only [List.foldl_cons, Option.some_bind] at h
    cases hstep : actionsTypeStep acc hd with
    | none =>
      rw [hstep, actionsFold_none] at h
      cases h
    | some acc' =>
      rw [hstep] at h
      exact ih acc' acts k h (actionsTypeStep_superset hstep hk)

/-- A flagged argTypes entry is non-null, so its step adds the entry
rather than throwing. -/
theorem actionsTypeStep_of_flag (acc : List (String × Value)) (kv : String × Value)
    (hf : (jsTruthyOpt (vget kv.2 "action") || categoryIsEvents kv.2) = true) :
    actionsTypeStep acc kv = some (upsert acc kv.1 (.obj
      [("name", .str kv.1),
       ("description", jsOrV (vget kv.2 "description") (.str "")),
       ("action", actionName kv.1 kv.2)])) := by
  obtain ⟨k, v⟩ := kv
  cases v with
  | vnull =>
    exfalso
    simp [vget, jsTruthyOpt, categoryIsEvents, ovget] at hf
  | str s => simp [actionsTypeStep, hf]
  | num n => simp [actionsTypeStep, hf]
  | bool b => simp [actionsTypeStep, hf]
  | obj fs => simp [actionsTypeStep, hf]
  | arr es => simp [actionsTypeStep, hf]

/-- A flagged entry of the argTypes list contributes its key whenever
the loop completes without throwing. -/
theorem mem_keysOf_actionsFold :
    ∀ (l : List (String × Value)) (acc acts : List (String × Value)) (kv : String × Value),
      kv ∈ l →
      (jsTruthyOpt (vget kv.2 "action") || categoryIsEvents kv.2) = true →
      l.foldl (fun a? p => a?.bind (fun a => actionsTypeStep a p)) (some acc) = some acts →
      kv.1 ∈ keysOf acts := by
  intro l
  induction l with
  | nil =>
    intro acc acts kv hmem
    cases hmem
  | cons hd tl ih =>
    intro acc acts kv hmem hf h
    simp only [List.foldl_cons, Option.some_bind] at h
    rcases List.mem_cons.1 hmem with heq | hmem'
    · subst heq
      rw [actionsTypeStep_of_flag acc kv hf] at h
      exact keysOf_actionsFold_superset tl _ acts kv.1 h (self_mem_keysOf_upsert _ _ _)
    · cases hstep : actionsTypeStep acc hd with
      | none =>
        rw [hstep, actionsFold_none] at h
        cases h
      | some acc' =>
        rw [hstep] at h
        exact ih acc' acts kv hmem' hf h

/-- A null-valued entry anywhere in the argTypes list makes the action
loop throw, whatever state it starts from. -/
theorem actionsFold_throws :
    ∀ (l : List (String × Value)) (acc? : Option (List (String × Value))) (kv : String × Value),
      kv ∈ l → kv.2 = Value.vnull →
      l.foldl (fun a? p => a?.bind (fun a => actionsTypeStep a p)) acc? = none := by
  intro l
  induction l with
  | nil =>
    intro acc? kv hmem
    cases hmem
  | cons hd tl ih =>
    intro acc? kv hmem hnull
    simp only [List.foldl_cons]
    rcases List.mem_cons.1 hmem with heq | hmem'
    · subst heq
      cases acc? with
      | none =>
        simp only [Option.none_bind]
        exact actionsFold_none tl
      | some acc =>
        have hstep : actionsTypeStep acc kv = none := by
          obtain ⟨k, v⟩ := kv
          simp only at hnull
          subst hnull
          rfl
        simp only [Option.some_bind, hstep]
        exact actionsFold_none tl
    · exact ih _ kv hmem' hnull

/-- Every pair in the record-building loop's result is an old pair or a
record generated from a story whose actions evaluation did not throw. -/
theorem mem_fileRecordsLoop (code path : String) (meta : MetaObj) :
    ∀ (l : List (String × StoryState)) (acc : List (String × Value)) (p : String × Value),
      p ∈ fileRecordsLoop code path meta acc l →
      p ∈ acc ∨ ∃ q ∈ l, ∃ acts,
        extractActionsFromArgs q.2.args meta.argTypes = some acts ∧
        p = (generateStoryId (jsToString meta.title) q.1,
             .obj (storyRecord code path meta q.1 q.2 acts)) := by
  intro l
  induction l with
  | nil =>
    intro acc p h
    exact Or.inl h
  | cons hd tl ih =>
    intro acc p h
    unfold fileRecordsLoop at h
    cases hact : extractActionsFromArgs hd.2.args meta.argTypes with
    | none =>
      rw [hact] at h
      exact Or.inl h
    | some acts =>
      rw [hact] at h
      rcases ih _ p h with hin | ⟨q, hq, acts', hacts', hpq⟩
      · rcases mem_upsert hin with h2 | h2
        · exact Or.inl h2
        · exact Or.inr ⟨hd, List.mem_cons_self hd tl, acts, hact, h2⟩
      · exact Or.inr ⟨q, List.mem_cons_of_mem hd hq, acts', hacts', hpq⟩

/-- `extractList` is `List.map extractValue`. -/
theorem extractList_eq_map (es : List Node) : extractList es = es.map extractValue := by
  induction es with
  | nil => rfl
  | cons n ns ih => simp [extractList, ih]

/-- Pushing one untouched character through the slug pipeline. -/
theorem slugChars_cons_plain (c : Char) (l : List Char)
    (h1 : Char.toLower c = c) (h2 : isJsWs c = false) (h3 : slashToHyphen c = c)
    (h4 : isSlugChar c = true) :
    slugChars (c :: l) = c :: slugChars l := by
  simp [slugChars, collapseWs, h1, h2, h3, h4]

/-- Each character of the slug alphabet passes through every slug stage
unchanged, is no whitespace, and is not the separator hyphen. -/
theorem slugAlphabet_facts :
    ∀ c ∈ slugAlphabet, Char.toLower c = c ∧ isJsWs c = false ∧ slashToHyphen c = c ∧
      isSlugChar c = true ∧ (c == '-') = false := by
  decide

/-- The hyphen itself passes through every slug stage unchanged. -/
theorem slug_hyphen_facts :
    Char.toLower '-' = '-' ∧ isJsWs '-' = false ∧ slashToHyphen '-' = '-' ∧
      isSlugChar '-' = true := by
  decide

/-- The slug pipeline is the identity on sequences of slug-alphabet
characters and hyphens. -/
theorem slug_fix (l : List Char) (h : ∀ c ∈ l, c ∈ slugAlphabet ∨ c = '-') :
    slugChars l = l := by
  induction l with
  | nil => rfl
  | cons c cs ih =>
    have hc := h c (List.mem_cons_self c cs)
    have step : slugChars (c :: cs) = c :: slugChars cs := by
      rcases hc with hc | hc
      · obtain ⟨f1, f2, f3, f4, _⟩ := slugAlphabet_facts c hc
        exact slugChars_cons_plain c cs f1 f2 f3 f4
      · subst hc
        exact slugChars_cons_plain _ cs slug_hyphen_facts.1 slug_hyphen_facts.2.1
          slug_hyphen_facts.2.2.1 slug_hyphen_facts.2.2.2
    rw [step, ih (fun d hd => h d (List.mem_cons_of_mem c hd))]

/-- Splitting at the first hyphen pair is unique when the prefixes are
hyphen-free. -/
theorem append_sep_inj : ∀ (t1 t2 n1 n2 : List Char),
    (∀ c ∈ t1, c ≠ '-') → (∀ c ∈ t2, c ≠ '-') →
    t1 ++ '-' :: '-' :: n1 = t2 ++ '-' :: '-' :: n2 → t1 = t2 ∧ n1 = n2 := by
  intro t1
  induction t1 with
  | nil =>
    intro t2 n1 n2 _ h2 he
    cases t2 with
    | nil => simpa using he
    | cons d ds =>
      exfalso
      simp only [List.nil_append, List.cons_append] at he
      injection he with hh _
      exact h2 d (List.mem_cons_self d ds) hh.symm
  | cons a as ih =>
    intro t2 n1 n2 h1 h2 he
    cases t2 with
    | nil =>
      exfalso
      simp only [List.nil_append, List.cons_append] at he
      injection he with hh _
      exact h1 a (List.mem_cons_self a as) hh
    | cons b bs =>
      simp only [List.cons_append] at he
      injection he with hh ht
      obtain ⟨hA, hB⟩ := ih bs n1 n2
        (fun c hc => h1 c (List.mem_cons_of_mem a hc))
        (fun c hc => h2 c (List.mem_cons_of_mem b hc)) ht
      exact ⟨by rw [hh, hA], hB⟩

/-- On slug-alphabet inputs, the id is just the two parts around the
hyphen-pair separator. -/
theorem generateStoryId_of_slug (t n : String)
    (ht : ∀ c ∈ t.data, c ∈ slugAlphabet) (hn : ∀ c ∈ n.data, c ∈ slugAlphabet) :
    generateStoryId t n = String.mk (t.data ++ '-' :: '-' :: n.data) := by
  have hd : (t ++ "--" ++ n).data = t.data ++ '-' :: '-' :: n.data := by
    simp [String.data_append]
  unfold generateStoryId
  rw [hd, slug_fix]
  intro c hc
  rcases List.mem_append.1 hc with h | h
  · exact Or.inl (ht c h)
  · simp only [List.mem_cons] at h
    rcases h with h | h | h
    · exact Or.inr h
    · exact Or.inr h
    · exact Or.inl (hn c h)

end Helpers

section ClaimInputs

/-- The claim C5 example file: default export with title and argTypes,
one named story export, and an args assignment. -/
def buttonFile : SrcFile :=
  { path := "./src/Button.stories.ts",
    code := "export default buttonMeta",
    parsed := some
      [Stmt.exportDefault (.objectExpr
         [(some (.identK "title"), some (.stringLit "Components/Button")),
          (some (.identK "argTypes"), some (.objectExpr
            [(some (.identK "variant"), some (.objectExpr
               [(some (.identK "control"), some (.objectExpr
                  [(some (.identK "type"), some (.stringLit "select"))]))]))]))]),
       Stmt.exportVars [some "Primary"],
       Stmt.assign (some "Primary") (some "args") (.objectExpr
         [(some (.identK "variant"), some (.stringLit "primary")),
          (some (.identK "disabled"), some (.booleanLit false))])] }

/-- A file holding exactly one story with empty args. -/
def oneStoryFile : SrcFile :=
  { path := "./src/One.stories.ts", code := "export const One",
    parsed := some [Stmt.exportVars [some "One"]] }

/-- A file whose parse fails. -/
def badFile : SrcFile :=
  { path := "./src/Broken.stories.ts", code := "export const (", parsed := none }

/-- A file with a story whose args hold an arrow function. -/
def clickFile : SrcFile :=
  { path := "./src/Click.stories.ts", code := "export const Clicky",
    parsed := some
      [Stmt.exportVars [some "Clicky"],
       Stmt.assign (some "Clicky") (some "args") (.objectExpr
         [(some (.identK "onClick"), some .arrowFunctionExpr)])] }

/-- A file whose default-export title is a truthy numeric literal. -/
def numTitleFile : SrcFile :=
  { path := "./src/Num.stories.ts", code := "export default numMeta",
    parsed := some
      [Stmt.exportDefault (.objectExpr [(some (.identK "title"), some (.numericLit 42))]),
       Stmt.exportVars [some "A"]] }

/-- An environment where source parsing finds no stories but the live
index holds one entry and deep introspection works. -/
def envDeepWins : Env :=
  { now := "t", sourceFiles := some [],
    indexEntries := some [("s1", .obj [("id", .str "s1")])],
    deepEnv := .ok (fun _ => .nulldata), builtIndex := some [] }

/-- A build-plus-enhance environment: a built index on disk, no parsable
source tree, and a reachable dev server whose deep introspection
succeeds. -/
def envEnhance : Env :=
  { now := "t", sourceFiles := none,
    indexEntries := some [("s1",
      .obj [("id", .str "s1"), ("title", .str "T"), ("name", .str "S1")])],
    deepEnv := .ok (fun _ => .nulldata),
    builtIndex := some [("s1", .obj [("id", .str "s1")])] }

/-- An environment with neither source parsing nor a reachable dev
server, only the built index. -/
def envBuiltOnly : Env :=
  { now := "t", sourceFiles := none, indexEntries := none,
    deepEnv := .unavailable, builtIndex := some [("s1", .obj [("id", .str "s1")])] }

/-- An environment where source parsing yields one story. -/
def envSourceWins : Env :=
  { now := "t", sourceFiles := some [oneStoryFile], indexEntries := none,
    deepEnv := .unavailable, builtIndex := none }

end ClaimInputs

section Claims

/-- C1 counterexample: the built-artifact strategy returns a Catalog with
one story entry but `totalStories` still 0, so a Catalog returned by an
extraction strategy need not satisfy the claimed invariant. -/
theorem c1_counterexample :
    (extractFromBuiltStorybook "t" (some [("a--b", .obj [("id", .str "a--b")])])).map
      (fun c => (c.totalStories, c.stories.length)) = some (0, 1) := rfl

/-- C1 amended: the source-file, live-deep and live-basic strategies
return `totalStories` equal to the size of `stories`, and so does every
catalog passed through `saveMetadata` (hence the saved output always
satisfies the invariant); the built-artifact strategy alone leaves
`totalStories` at 0. -/
theorem c1_amended :
    (∀ now files, (extractFromSourceFiles now files).totalStories
        = (extractFromSourceFiles now files).stories.length) ∧
    (∀ now entries fetch, (extractDeepMetadataWithBrowser now entries fetch).totalStories
        = (extractDeepMetadataWithBrowser now entries fetch).stories.length) ∧
    (∀ now entries, (basicIndexCatalog now entries).totalStories
        = (basicIndexCatalog now entries).stories.length) ∧
    (∀ m, (saveMetadata m).totalStories = (saveMetadata m).stories.length) ∧
    (∀ now entries, (extractFromBuiltStorybook now (some entries)).map Catalog.totalStories
        = some 0) :=
  ⟨fun _ _ => rfl, fun _ _ _ => rfl, fun _ _ => rfl, fun _ => rfl, fun _ _ => rfl⟩

/-- C2 counterexample: two distinct (title, name) pairs produce the same
story id, so id generation is not injective. -/
theorem c2_counterexample :
    generateStoryId "Components/Button" "Primary"
      = generateStoryId "Components Button" "Primary" ∧
    ("Components/Button" != "Components Button") = true :=
  ⟨rfl, rfl⟩

/-- C2 amended: id generation is a pure function of the pair, but
injectivity only holds on restricted inputs: when both titles and names
consist of lowercase ASCII letters and digits, distinct pairs give
distinct ids; in general distinct pairs may collide after slugging. -/
theorem c2_amended (t1 n1 t2 n2 : String)
    (ht1 : ∀ c ∈ t1.data, c ∈ slugAlphabet) (hn1 : ∀ c ∈ n1.data, c ∈ slugAlphabet)
    (ht2 : ∀ c ∈ t2.data, c ∈ slugAlphabet) (hn2 : ∀ c ∈ n2.data, c ∈ slugAlphabet)
    (he : generateStoryId t1 n1 = generateStoryId t2 n2) :
    t1 = t2 ∧ n1 = n2 := by
  rw [generateStoryId_of_slug t1 n1 ht1 hn1, generateStoryId_of_slug t2 n2 ht2 hn2] at he
  have hdata : t1.data ++ '-' :: '-' :: n1.data = t2.data ++ '-' :: '-' :: n2.data :=
    congrArg String.data he
  have noh1 : ∀ c ∈ t1.data, c ≠ '-' := by
    intro c hc
    have := (slugAlphabet_facts c (ht1 c hc)).2.2.2.2
    simpa using this
  have noh2 : ∀ c ∈ t2.data, c ≠ '-' := by
    intro c hc
    have := (slugAlphabet_facts c (ht2 c hc)).2.2.2.2
    simpa using this
  obtain ⟨hA, hB⟩ := append_sep_inj t1.data t2.data n1.data n2.data noh1 noh2 hdata
  exact ⟨String.ext hA, String.ext hB⟩

/-- C2 witness: the amended injectivity applied at a concrete pair of
slug-alphabet inputs. -/
theorem c2_witness : ("btn" : String) = "btn" ∧ ("primary" : String) = "primary" :=
  c2_amended "btn" "primary" "btn" "primary"
    (by decide) (by decide) (by decide) (by decide) rfl

/-- C5: on the example file, source extraction yields a record with the
claimed id, args and argTypes control type. -/
theorem c5_button_example :
    storyField (extractFromSourceFiles "t" [buttonFile]) "components-button--primary" "id"
      = some (.str "components-button--primary") ∧
    storyField (extractFromSourceFiles "t" [buttonFile]) "components-button--primary" "args"
      = some (.obj [("variant", .str "primary"), ("disabled", .bool false)]) ∧
    ovget (ovget (ovget (storyField (extractFromSourceFiles "t" [buttonFile])
        "components-button--primary" "argTypes") "variant") "control") "type"
      = some (.str "select") :=
  ⟨rfl, rfl, rfl⟩

/-- C6: the value normalizer maps function and arrow-function nodes to
the function sentinel, JSX elements and fragments to the JSX sentinel,
identifiers to their name, type assertions to the normalization of the
inner expression, and every unrecognized node kind to null. -/
theorem c6_extractValue_cases :
    extractValue .arrowFunctionExpr = .str "[Function]" ∧
    extractValue .functionExpr = .str "[Function]" ∧
    extractValue .jsxElement = .str "[JSX Element]" ∧
    extractValue .jsxFragment = .str "[JSX Element]" ∧
    (∀ s, extractValue (.ident s) = .str s) ∧
    (∀ n, extractValue (.tsAs n) = extractValue n) ∧
    (∀ k, extractValue (.other k) = .vnull) :=
  ⟨rfl, rfl, rfl, rfl, fun _ => rfl, fun _ => rfl, fun _ => rfl⟩

/-- C7: an array literal normalizes to the mapped elements with the
null-normalizing ones filtered out; in particular every surviving
element is non-null, and both a literal null element and an unsupported
expression element are absent. -/
theorem c7_array_filter :
    (∀ es : List Node, extractValue (.arrayExpr es)
        = .arr ((es.map extractValue).filter (fun v => !v.isNull))) ∧
    (∀ es : List Node, ((es.map extractValue).filter (fun v => !v.isNull)).all
        (fun v => !v.isNull) = true) ∧
    extractValue (.arrayExpr [.nullLit, .other "CallExpression", .stringLit "x"])
      = .arr [.str "x"] := by
  refine ⟨fun es => ?_, fun es => ?_, rfl⟩
  · simp [extractValue, extractList_eq_map]
  · simp only [List.all_eq_true]
    intro v hv
    exact (List.mem_filter.1 hv).2

/-- An id generated from the empty title starts with the hyphen-pair
separator. -/
theorem gid_empty_title_take2 (name : String) :
    (generateStoryId "" name).data.take 2 = ['-', '-'] := by
  have hd : ("" ++ "--" ++ name).data = '-' :: '-' :: name.data := by
    simp [String.data_append]
  unfold generateStoryId
  rw [hd,
    slugChars_cons_plain _ _ slug_hyphen_facts.1 slug_hyphen_facts.2.1
      slug_hyphen_facts.2.2.1 slug_hyphen_facts.2.2.2,
    slugChars_cons_plain _ _ slug_hyphen_facts.1 slug_hyphen_facts.2.1
      slug_hyphen_facts.2.2.1 slug_hyphen_facts.2.2.2]
  rfl

/-- C3 counterexample: with an empty source tree and a reachable live
server, the fallback after source parsing is the deep live-server
strategy, not the built-artifact index: the resulting provenance tag is
the deep one. -/
theorem c3_counterexample :
    (extractFromSourceFiles "t" []).totalStories = 0 ∧
    (extractFromRunningStorybook envDeepWins).map Catalog.extractedFrom
      = some "running-storybook-deep" ∧
    ("running-storybook-deep" != "built-storybook") = true :=
  ⟨rfl, rfl, rfl⟩

/-- C3 amended: source parsing is tried first and kept whenever it
yields stories; when it is unavailable or yields zero stories AND the
live-server index is unreachable or empty, the selector returns the
built-artifact result, whose provenance tag is the built-storybook one
(with a live index available, the live strategies are tried before the
built index). -/
theorem c3_amended :
    (∀ (env : Env) (m : Catalog),
        extractFromSourceFilesOpt env.now env.sourceFiles = some m →
        0 < m.totalStories →
        extractFromRunningStorybook env = some m) ∧
    (∀ env : Env,
        (∀ m, extractFromSourceFilesOpt env.now env.sourceFiles = some m →
          m.totalStories = 0) →
        (env.indexEntries = none ∨ env.indexEntries = some []) →
        extractFromRunningStorybook env
            = extractFromBuiltStorybook env.now env.builtIndex ∧
          ∀ c, extractFromBuiltStorybook env.now env.builtIndex = some c →
            c.extractedFrom = "built-storybook") := by
  constructor
  · intro env m h hpos
    simp [extractFromRunningStorybook, h, hpos]
  · intro env h1 h2
    have hbuilt : ∀ c, extractFromBuiltStorybook env.now env.builtIndex = some c →
        c.extractedFrom = "built-storybook" := by
      intro c hc
      cases hb : env.builtIndex with
      | none => simp [extractFromBuiltStorybook, hb] at hc
      | some es =>
        simp only [extractFromBuiltStorybook, hb, Option.some.injEq] at hc
        rw [← hc]
        rfl
    refine ⟨?_, hbuilt⟩
    cases hsrc : extractFromSourceFilesOpt env.now env.sourceFiles with
    | none =>
      rcases h2 with h2 | h2 <;> simp [extractFromRunningStorybook, hsrc, h2]
    | some m =>
      have hz : m.totalStories = 0 := h1 m hsrc
      rcases h2 with h2 | h2 <;> simp [extractFromRunningStorybook, hsrc, hz, h2]

/-- C3 witness: the amended selector behaviour at two concrete
environments (source wins with one story; everything else unavailable
falls back to the built index). -/
theorem c3_witness :
    extractFromRunningStorybook envSourceWins
        = some (extractFromSourceFiles "t" [oneStoryFile]) ∧
    extractFromRunningStorybook envBuiltOnly
        = extractFromBuiltStorybook envBuiltOnly.now envBuiltOnly.builtIndex := by
  constructor
  · exact c3_amended.1 envSourceWins (extractFromSourceFiles "t" [oneStoryFile]) rfl
      (by decide)
  · exact (c3_amended.2 envBuiltOnly
      (fun m h => by simp [extractFromSourceFilesOpt, envBuiltOnly] at h)
      (Or.inl rfl)).1

/-- C4: in build-plus-enhance mode, the retried extraction yields a
non-empty catalog with the deep provenance tag, yet the saved result
keeps the basic built catalog: the replacement guard compares the tag to
a string no strategy produces, so the enhanced catalog never replaces
the basic one. -/
theorem c4_enhance_dead_branch :
    (extractFromRunningStorybook envEnhance).map Catalog.extractedFrom
      = some "running-storybook-deep" ∧
    (extractFromRunningStorybook envEnhance).map Catalog.totalStories = some 1 ∧
    (mainBuildResult true envEnhance).map Catalog.extractedFrom
      = some "built-storybook" ∧
    ("running-storybook-deep" != "running-storybook") = true :=
  ⟨rfl, rfl, rfl, rfl⟩

/-- C8: a file whose parse fails contributes nothing and every other
file of the run is processed exactly as if the bad file were absent, so
the run's catalog still holds the sibling stories. -/
theorem c8_parse_failure_skipped (now : String) (pre post : List SrcFile) (f : SrcFile)
    (hbad : f.parsed = none) :
    extractFromSourceFiles now (pre ++ f :: post)
      = extractFromSourceFiles now (pre ++ post) := by
  simp [extractFromSourceFiles, List.foldl_append, hbad]

/-- C8 witness: a run over a good file followed by an unparsable file
equals the run over the good file alone. -/
theorem c8_witness :
    extractFromSourceFiles "t" ([oneStoryFile] ++ badFile :: [])
      = extractFromSourceFiles "t" ([oneStoryFile] ++ []) :=
  c8_parse_failure_skipped "t" [oneStoryFile] [] badFile rfl

/-- C9: whenever the actions extraction produces a mapping, it contains
every args key that starts with "on" or whose normalized value is the
function sentinel, and every argTypes key flagged by a truthy action
field or an events table category; a null-valued argTypes entry instead
makes the extraction throw (the unchained `config.action` access), so no
mapping is produced; on the concrete example, the arrow-function arg
normalizes to the sentinel in the record's args and its name is a key of
the record's actions. -/
theorem c9_actions_membership :
    (∀ (args argTypes acts : List (String × Value)) (kv : String × Value), kv ∈ args →
        (strStartsWith kv.1 "on" || isFnSentinel kv.2) = true →
        extractActionsFromArgs args argTypes = some acts →
        kv.1 ∈ keysOf acts) ∧
    (∀ (args argTypes acts : List (String × Value)) (kv : String × Value), kv ∈ argTypes →
        (jsTruthyOpt (vget kv.2 "action") || categoryIsEvents kv.2) = true →
        extractActionsFromArgs args argTypes = some acts →
        kv.1 ∈ keysOf acts) ∧
    (∀ (args argTypes : List (String × Value)) (kv : String × Value), kv ∈ argTypes →
        kv.2 = Value.vnull →
        extractActionsFromArgs args argTypes = none) ∧
    storyField (extractFromSourceFiles "t" [clickFile]) "--clicky" "args"
      = some (.obj [("onClick", .str "[Function]")]) ∧
    storyField (extractFromSourceFiles "t" [clickFile]) "--clicky" "actions"
      = some (.obj [("onClick", .obj
          [("name", .str "onClick"), ("description", .str ""),
           ("action", .str "onClick")])]) := by
  refine ⟨?_, ?_, ?_, rfl, rfl⟩
  · intro args ats acts kv hmem hf hsome
    unfold extractActionsFromArgs at hsome
    exact keysOf_actionsFold_superset ats _ acts kv.1 hsome
      (mem_keysOf_foldl_upsert _ _ args [] kv hmem hf)
  · intro args ats acts kv hmem hf hsome
    unfold extractActionsFromArgs at hsome
    exact mem_keysOf_actionsFold ats _ acts kv hmem hf hsome
  · intro args ats kv hmem hnull
    unfold extractActionsFromArgs
    exact actionsFold_throws ats _ kv hmem hnull

/-- The actions mapping produced for a lone function-sentinel arg. -/
def onClickActs : List (String × Value) :=
  [("onClick", .obj
    [("name", .str "onClick"), ("description", .str ""), ("action", .str "onClick")])]

/-- The actions mapping produced for a lone action-flagged argType. -/
def onChangeActs : List (String × Value) :=
  [("onChange", .obj
    [("name", .str "onChange"), ("description", .str ""), ("action", .str "changed")])]

/-- C9 witness: the containment parts applied at concrete args and
argTypes objects, and the throwing part at a null-valued argTypes
entry. -/
theorem c9_witness :
    ("onClick" : String) ∈ keysOf onClickActs ∧
    ("onChange" : String) ∈ keysOf onChangeActs ∧
    extractActionsFromArgs [] [("broken", Value.vnull)] = none := by
  refine ⟨?_, ?_, ?_⟩
  · exact c9_actions_membership.1 [("onClick", Value.str "[Function]")] [] onClickActs
      ("onClick", Value.str "[Function]") (List.mem_singleton_self _) (by decide) rfl
  · exact c9_actions_membership.2.1 []
      [("onChange", Value.obj [("action", Value.str "changed")])] onChangeActs
      ("onChange", Value.obj [("action", Value.str "changed")])
      (List.mem_singleton_self _) (by decide) rfl
  · exact c9_actions_membership.2.2.1 [] [("broken", Value.vnull)]
      ("broken", Value.vnull) (List.mem_singleton_self _) rfl

/-- C10 counterexample: a default-export title that is a truthy numeric
literal (not a string literal) does set the title, so the record's title
and kind are the number 42 rather than "Unknown", and the id does not
begin with the hyphen pair. -/
theorem c10_counterexample :
    storyField (extractFromSourceFiles "t" [numTitleFile]) "42--a" "title"
      = some (.num 42) ∧
    storyField (extractFromSourceFiles "t" [numTitleFile]) "42--a" "kind"
      = some (.num 42) ∧
    keysOf (extractFromSourceFiles "t" [numTitleFile]).stories = ["42--a"] ∧
    ("42--a" : String).data.take 2 = ['4', '2'] :=
  ⟨rfl, rfl, rfl, rfl⟩

/-- C10 amended: when the traversal leaves the meta title at the empty
string (no title property with a truthy literal value: missing or
non-object default export, a title with no literal value, or a falsy
literal), every record of the file has title and kind "Unknown" and its
id begins with the hyphen pair. -/
theorem c10_amended (now : String) (f : SrcFile) (stmts : List Stmt)
    (hp : f.parsed = some stmts)
    (ht : (stmts.foldl processStmt { meta := fileInitMeta, stories := [] }).meta.title
      = Value.str "")
    (sid : String) (v : Value)
    (hmem : (sid, v) ∈ (extractFromSourceFiles now [f]).stories) :
    vget v "title" = some (.str "Unknown") ∧ vget v "kind" = some (.str "Unknown") ∧
    sid.data.take 2 = ['-', '-'] := by
  have hstories : (extractFromSourceFiles now [f]).stories = fileRecords [] f stmts := by
    simp [extractFromSourceFiles, hp]
  rw [hstories] at hmem
  unfold fileRecords at hmem
  rcases mem_fileRecordsLoop _ _ _ _ _ _ hmem with h | ⟨q, _, acts, _, hpq⟩
  · cases h
  · obtain ⟨hsid, hv⟩ := Prod.mk.injEq _ _ _ _ ▸ hpq
    subst hv
    refine ⟨?_, ?_, ?_⟩
    · simp [storyRecord, vget, lookupKV, ht, jsOr, jsTruthy]
    · simp [storyRecord, vget, lookupKV, ht, jsOr, jsTruthy]
    · rw [ht] at hsid
      subst hsid
      simpa [jsToString] using gid_empty_title_take2 q.1

/-- The record of the single story of `oneStoryFile` (whose file has no
default export, hence an empty meta title and an empty actions
mapping). -/
def oneStoryRecord : Value :=
  Value.obj (storyRecord "export const One" "./src/One.stories.ts" fileInitMeta "One"
    { name := "One", args := [], storyName := .str "One" } [])

/-- C10 witness: the amended statement applied to the concrete
one-story, no-meta file. -/
theorem c10_witness :
    vget oneStoryRecord "title" = some (.str "Unknown") ∧
    vget oneStoryRecord "kind" = some (.str "Unknown") ∧
    ("--one" : String).data.take 2 = ['-', '-'] :=
  c10_amended "t" oneStoryFile [Stmt.exportVars [some "One"]] rfl rfl
    "--one" oneStoryRecord (List.Mem.head _)

end Claims

end SBExtract
